import Mathlib

/-!
Verification development for the CPU-advisor server core of katalyst-core
(`pkg/agent/sysadvisor/plugin/qosaware/server/cpu_server.go`).

The Go code is shallowly embedded as executable Lean definitions:

* Go maps are modelled as association lists (first-match lookup, in-place
  replace on insert of an existing key, append for a fresh key);
* Go pointers to `Block` objects are modelled through an explicit object
  store (`AsmState.store`), so aliasing and in-place mutation of blocks
  during assembly behave exactly as in the Go code;
* fallible code returns an `Option String` error component;
* external collaborators (pod lookup, QoS classification, the advisory
  engine, the wire transport) are inputs to the embedded functions.

Helpers of this repository that are not part of the embedded source file
(`NewBlock`, `InnerBlock.join`, the block registry, the metacache
operations, `getNumaCalculationResult`, `NewPoolCalculationEntries`,
`GetPoolOverlapInfo`, `IsDedicatedNumaBinding`,
`TransformCPUAssignmentFormat`) are modelled from the specification and
are marked as such in their doc comments.
-/

namespace KatalystCpuServer

/-! ## Association-list maps (the model of Go maps) -/

/-- First-match lookup in an association list, the model of Go map reads. -/
def lookupA {α β : Type} [DecidableEq α] : List (α × β) → α → Option β
  | [], _ => none
  | (k, v) :: t, a => if a = k then some v else lookupA t a

/-- Insert-or-replace in an association list, the model of Go map writes:
the first entry with the same key is replaced, otherwise the pair is
appended. -/
def insertA {α β : Type} [DecidableEq α] : List (α × β) → α → β → List (α × β)
  | [], a, b => [(a, b)]
  | (k, v) :: t, a, b => if a = k then (a, b) :: t else (k, v) :: insertA t a b

/-- Modify the value at a key if present; leave the list unchanged otherwise. -/
def updateA {α β : Type} [DecidableEq α] (f : β → β) : List (α × β) → α → List (α × β)
  | [], _ => []
  | (k, v) :: t, a => if a = k then (k, f v) :: t else (k, v) :: updateA f t a

/-! ## Constants of `commonstate` used by the server -/

/-- `commonstate.FakedContainerName`: the sentinel sub-key that marks a
checkpoint row as a pool-level row. -/
def FakedContainerName : String := ""

/-- `commonstate.PoolNameReclaim`. -/
def PoolNameReclaim : String := "reclaim"

/-- `commonstate.PoolNameReserve`. -/
def PoolNameReserve : String := "reserve"

/-! ## Data model -/

/-- QoS level of a pod (`consts.PodAnnotationQoSLevel*`). -/
inductive QoSLevel : Type
  | sharedCores
  | reclaimedCores
  | dedicatedCores
  | systemCores
  deriving DecidableEq, Repr

/-- A per-NUMA topology-aware CPU-set assignment: NUMA id to the set of
CPUs (a CPU set is modelled as the list of its CPU ids; only its
cardinality and identity matter to the embedded code). -/
def CPUAssignment : Type := List (Int × List Nat)

instance : DecidableEq CPUAssignment := by unfold CPUAssignment; infer_instance

/-- Modelled from the spec: `machine.TransformCPUAssignmentFormat` converts
the wire format of a topology-aware assignment into the cache format.  Both
sides are modelled already parsed (per-NUMA CPU sets), so the conversion is
the identity on the model. -/
def TransformCPUAssignmentFormat (a : CPUAssignment) : CPUAssignment := a

/-- `types.PoolInfo`: the cached record of one pool. -/
structure PoolInfo : Type where
  poolName : String
  topologyAwareAssignments : CPUAssignment
  originalTopologyAwareAssignments : CPUAssignment
  deriving DecidableEq

/-- `types.ContainerInfo`: the cached record of one container.  The
`timestamp` field is the creation/last-seen time used by safe-time GC
(modelled from the spec's Container attribute list). -/
structure ContainerInfo : Type where
  podUID : String
  containerName : String
  qosLevel : QoSLevel
  ownerPoolName : String
  originOwnerPoolName : String
  rampUp : Bool
  isolated : Bool
  regionNames : List String
  topologyAwareAssignments : CPUAssignment
  originalTopologyAwareAssignments : CPUAssignment
  numaBinding : Bool
  timestamp : Int
  deriving DecidableEq

/-- Modelled from the spec: `ci.IsDedicatedNumaBinding()` — the container
has dedicated-cores QoS and the NUMA-binding annotation. -/
def ContainerInfo.IsDedicatedNumaBinding (ci : ContainerInfo) : Bool :=
  ci.qosLevel = QoSLevel.dedicatedCores ∧ ci.numaBinding

/-- `cpuadvisor.AllocationInfo`: one checkpoint row (pool-level or
container-level). -/
structure AllocationInfo : Type where
  ownerPoolName : String
  rampUp : Bool
  topologyAwareAssignments : CPUAssignment
  originalTopologyAwareAssignments : CPUAssignment
  deriving DecidableEq

/-- `cpuadvisor.GetCheckpointResponse.Entries`: entry name (pool name or
pod UID) to sub-entries (container name, or the faked-container sentinel
for pool rows) to allocation info. -/
def Checkpoint : Type := List (String × List (String × AllocationInfo))

instance : DecidableEq Checkpoint := by unfold Checkpoint; infer_instance

/-- Modelled from the spec: the metacache, the authoritative pool/container
registries between cycles.  Containers are keyed by (pod UID, container
name), pools by pool name. -/
structure MetaCache : Type where
  pools : List (String × PoolInfo)
  containers : List ((String × String) × ContainerInfo)
  deriving DecidableEq

/-- Modelled from the spec: `metaCache.GetPoolInfo`. -/
def MetaCache.GetPoolInfo (c : MetaCache) (poolName : String) : Option PoolInfo :=
  lookupA c.pools poolName

/-- Modelled from the spec: `metaCache.GetContainerInfo` (the cache hands
out deep copies; values are immutable in the model, so a read is a copy). -/
def MetaCache.GetContainerInfo (c : MetaCache) (podUID containerName : String) :
    Option ContainerInfo :=
  lookupA c.containers (podUID, containerName)

/-- Modelled from the spec: `metaCache.SetPoolInfo`. -/
def MetaCache.SetPoolInfo (c : MetaCache) (poolName : String) (pi : PoolInfo) : MetaCache :=
  { c with pools := insertA c.pools poolName pi }

/-- Modelled from the spec: `metaCache.SetContainerInfo`. -/
def MetaCache.SetContainerInfo (c : MetaCache) (podUID containerName : String)
    (ci : ContainerInfo) : MetaCache :=
  { c with containers := insertA c.containers (podUID, containerName) ci }

/-- Modelled from the spec: `metaCache.RangeAndDeleteContainer f safeTime`
deletes every container for which `f` holds, using `safeTime` as the
monotonic fence: a container whose timestamp is later than `safeTime`
survives even if `f` holds (spec section 8, GC safety). -/
def MetaCache.RangeAndDeleteContainer (c : MetaCache) (f : ContainerInfo → Bool)
    (safeTime : Int) : MetaCache :=
  { c with containers :=
      c.containers.filter (fun kv => ¬ (f kv.2 ∧ kv.2.timestamp ≤ safeTime)) }

/-- Modelled from the spec: `metaCache.GCPoolEntries living` deletes every
pool whose name is not in the living set. -/
def MetaCache.GCPoolEntries (c : MetaCache) (living : List String) : MetaCache :=
  { c with pools := c.pools.filter (fun kv => kv.1 ∈ living) }

/-! ## Checkpoint reconciliation (`syncCheckpoint` and helpers) -/

/-- `cpuServer.updatePoolInfo`: upsert one pool record from a checkpoint
pool row.  On a miss a fresh record is created whose name is taken from the
row's owner-pool field (as in the source); both topology assignments are
overwritten from the row. -/
def updatePoolInfo (poolName : String) (info : AllocationInfo) (cache : MetaCache) :
    MetaCache :=
  let pi :=
    match cache.GetPoolInfo poolName with
    | some pi => pi
    | none =>
        { poolName := info.ownerPoolName
          topologyAwareAssignments := []
          originalTopologyAwareAssignments := [] }
  let pi :=
    { pi with
      topologyAwareAssignments := TransformCPUAssignmentFormat info.topologyAwareAssignments
      originalTopologyAwareAssignments :=
        TransformCPUAssignmentFormat info.originalTopologyAwareAssignments }
  cache.SetPoolInfo poolName pi

/-- `cpuServer.updateContainerInfo`: update one container record from a
checkpoint container row.  `qosResult` is the outcome of the external
`qosConf.GetQoSLevelForPod` lookup (`none` models a lookup failure).
Returns the updated cache and an error; on any error path the cache is
returned untouched (mutations happen on the local deep copy only). -/
def updateContainerInfo (podUID containerName : String) (qosResult : Option QoSLevel)
    (info : AllocationInfo) (cache : MetaCache) : MetaCache × Option String :=
  match cache.GetContainerInfo podUID containerName with
  | none => (cache, some "container not exist")
  | some ci =>
    let ci :=
      { ci with
        rampUp := info.rampUp
        topologyAwareAssignments := TransformCPUAssignmentFormat info.topologyAwareAssignments
        originalTopologyAwareAssignments :=
          TransformCPUAssignmentFormat info.originalTopologyAwareAssignments
        ownerPoolName := info.ownerPoolName }
    match qosResult with
    | none => (cache, some "get qos level failed")
    | some qosLevel =>
      let ci := if ci.qosLevel ≠ qosLevel then { ci with qosLevel := qosLevel } else ci
      let ci :=
        if ci.originOwnerPoolName = "" then
          { ci with originOwnerPoolName := ci.ownerPoolName }
        else ci
      let ci :=
        if ci.qosLevel ≠ QoSLevel.dedicatedCores ∧ ci.ownerPoolName ≠ "" then
          match cache.GetPoolInfo ci.ownerPoolName with
          | some poolInfo =>
              { ci with topologyAwareAssignments := poolInfo.topologyAwareAssignments }
          | none => ci
        else ci
      (cache.SetContainerInfo podUID containerName ci, none)

/-- Per-pod outcome of the external pod lookup chain: the pod-UID is absent
when `metaServer.GetPod` fails; otherwise the value is the outcome of the
QoS-level classification for that pod (`none` models a failed lookup). -/
def PodOracle : Type := List (String × Option QoSLevel)

instance : DecidableEq PodOracle := by unfold PodOracle; infer_instance

/-- Pool names of the checkpoint: entry names whose sub-entries contain the
faked-container sentinel (the first pass of `syncCheckpoint` inserts
exactly these into the living-pools set). -/
def checkpointPoolNames (cp : Checkpoint) : List String :=
  cp.filterMap fun e => if (lookupA e.2 FakedContainerName).isSome then some e.1 else none

/-- First pass of `syncCheckpoint`: upsert a pool record for every entry
carrying the faked-container sentinel sub-key. -/
def ingestPools : Checkpoint → MetaCache → MetaCache
  | [], cache => cache
  | (entryName, entries) :: rest, cache =>
    match lookupA entries FakedContainerName with
    | some info => ingestPools rest (updatePoolInfo entryName info cache)
    | none => ingestPools rest cache

/-- Inner loop of the second pass: update every container sub-entry of one
pod entry, logging and skipping per-container errors. -/
def ingestPodContainers (podUID : String) (qosResult : Option QoSLevel) :
    List (String × AllocationInfo) → MetaCache → MetaCache
  | [], cache => cache
  | (containerName, info) :: rest, cache =>
    ingestPodContainers podUID qosResult rest
      (updateContainerInfo podUID containerName qosResult info cache).1

/-- Second pass of `syncCheckpoint`: treat every entry without the sentinel
sub-key as a pod; a failed pod lookup skips the whole pod, per-container
failures are logged and skipped. -/
def ingestContainers (pods : PodOracle) : Checkpoint → MetaCache → MetaCache
  | [], cache => cache
  | (entryName, entries) :: rest, cache =>
    if (lookupA entries FakedContainerName).isSome then
      ingestContainers pods rest cache
    else
      match lookupA pods entryName with
      | none => ingestContainers pods rest cache
      | some qosResult =>
          ingestContainers pods rest (ingestPodContainers entryName qosResult entries cache)

/-- The GC predicate of `syncCheckpoint`: a cached container is stale when
its pod UID is absent from the checkpoint or its own sub-entry is missing. -/
def checkpointMissing (cp : Checkpoint) (ci : ContainerInfo) : Bool :=
  match lookupA cp ci.podUID with
  | none => true
  | some entries => (lookupA entries ci.containerName).isNone

/-- The origin-owner-pool names of all cached containers (the complement
pass that protects pools still referenced by live containers). -/
def containerOrigins (cache : MetaCache) : List String :=
  cache.containers.map fun kv => kv.2.originOwnerPoolName

/-- `cpuServer.syncCheckpoint`: two-pass ingestion (pools first, then
containers), container GC fenced by `safeTime`, then pool GC against the
living-pools set extended with surviving containers' origin owner pools. -/
def syncCheckpoint (cp : Checkpoint) (pods : PodOracle) (safeTime : Int)
    (cache : MetaCache) : MetaCache :=
  let living0 := checkpointPoolNames cp
  let cache := ingestPools cp cache
  let cache := ingestContainers pods cp cache
  let cache := cache.RangeAndDeleteContainer (checkpointMissing cp) safeTime
  let living := living0 ++ containerOrigins cache
  cache.GCPoolEntries living

/-! ## Block/overlap model (assembly-time)

Go represents blocks as heap objects shared by pointer between the wire
response and the registry; `join` mutates them in place.  The model keeps
an explicit object store: `AsmState.store` maps an object id (the model of
a Go pointer) to the block's data, the response lists carry object ids, and
the registry maps block identifiers to object ids.  Fresh identifiers come
from a counter. -/

/-- The payload of one `cpuadvisor.Block`: wire identifier, size, and the
overlap-target set.  Per the spec's Block model, overlap targets are the
identifiers of the blocks whose capacity coincides with this one. -/
structure BlockData : Type where
  blockId : Nat
  result : Nat
  overlapTargets : List Nat
  deriving DecidableEq

/-- Assembly-pass state: the block object store, the `blockSet` registry
(block identifier to object id), and the fresh-identifier counter. -/
structure AsmState : Type where
  store : List (Nat × BlockData)
  registry : List (Nat × Nat)
  fresh : Nat
  deriving DecidableEq

/-- The empty assembly state (`NewBlockSet()`). -/
def AsmState.init : AsmState := ⟨[], [], 0⟩

/-- Modelled from the spec: `NewBlock(size, id)` constructs a block with
the given capacity, generating a fresh unique identifier when none is
supplied.  Returns the object id of the new block, its wire identifier,
and the grown store. -/
def NewBlock (size : Nat) (blockId : Option Nat) (s : AsmState) :
    Nat × Nat × AsmState :=
  let obj := s.fresh
  let bid := blockId.getD s.fresh
  (obj, bid,
    { s with
      store := insertA s.store obj ⟨bid, size, []⟩
      fresh := s.fresh + 1 })

/-- The wire identifier of the block object `obj` (reading `block.BlockId`
through a pointer). -/
def blockBid (s : AsmState) (obj : Nat) : Nat :=
  match lookupA s.store obj with
  | some d => d.blockId
  | none => 0

/-- The overlap targets of the block object `obj` (reading
`block.OverlapTargets` through a pointer). -/
def blockTargets (s : AsmState) (obj : Nat) : List Nat :=
  match lookupA s.store obj with
  | some d => d.overlapTargets
  | none => []

/-- The (identifier, size) pair of the block object `obj`. -/
def blockInfo (s : AsmState) (obj : Nat) : Option (Nat × Nat) :=
  (lookupA s.store obj).map fun d => (d.blockId, d.result)

/-- `internalBlock`: the assembly-time association of a block with a NUMA
index and its owning pool or container.  Only the block object takes part
in `join`; the owner fields record context. -/
structure InnerBlock : Type where
  obj : Nat
  numaId : Int
  poolName : String
  containerInfo : Option ContainerInfo

/-- `NewInnerBlock(block, numaID, poolName, ci, numaCalculationResult)`
(the result container is carried by the caller in the model). -/
def NewInnerBlock (obj : Nat) (numaId : Int) (poolName : String)
    (containerInfo : Option ContainerInfo) : InnerBlock :=
  ⟨obj, numaId, poolName, containerInfo⟩

/-- Register a block in the registry keyed by its own wire identifier;
membership is never overwritten (there is no removal operation and the
first owner of an identifier keeps it). -/
def registerBlock (obj : Nat) (s : AsmState) : AsmState :=
  match lookupA s.store obj with
  | none => s
  | some d =>
    if (lookupA s.registry d.blockId).isSome then s
    else { s with registry := insertA s.registry d.blockId obj }

/-- Append a target identifier to the overlap-target set of the block
object `obj` (in-place mutation through the store). -/
def addTarget (obj : Nat) (bid : Nat) (s : AsmState) : AsmState :=
  { s with
    store := updateA (fun d => { d with overlapTargets := d.overlapTargets ++ [bid] })
      s.store obj }

/-- Modelled from the spec: `innerBlock.join(targetBlockId, blockSet)` —
register the block under its own identifier, then, if the target
identifier resolves to a different existing block, add a symmetric
overlap-target link between the two.  Joining a block against its own
identifier (the standalone pattern used throughout assembly) leaves it
without overlap targets. -/
def InnerBlock.join (ib : InnerBlock) (targetBid : Nat) (s : AsmState) : AsmState :=
  let s := registerBlock ib.obj s
  match lookupA s.registry targetBid with
  | none => s
  | some tObj =>
    if tObj = ib.obj then s
    else
      let s := addTarget tObj (blockBid s ib.obj) s
      addTarget ib.obj (blockBid s tObj) s

/-! ## Wire-response data model (`cpuadvisor` messages) -/

/-- `cpuadvisor.NumaCalculationResult`: the blocks of one NUMA index
(object ids into the assembly store). -/
structure NumaCalculationResult : Type where
  blocks : List Nat
  deriving DecidableEq

/-- `cpuadvisor.CalculationInfo`: published owner pool plus per-NUMA
blocks (an absent map is modelled as the empty list). -/
structure CalculationInfo : Type where
  ownerPoolName : String
  calculationResultsByNumas : List (Int × NumaCalculationResult)
  deriving DecidableEq

/-- `cpuadvisor.CalculationEntries`: container name (or the faked-container
sentinel for pool rows) to calculation info. -/
structure CalculationEntries : Type where
  entries : List (String × CalculationInfo)
  deriving DecidableEq

/-- The response-in-progress: entry name (pool name or pod UID) to
calculation entries. -/
def CEMap : Type := List (String × CalculationEntries)

instance : DecidableEq CEMap := by unfold CEMap; infer_instance

/-- Modelled from the spec: `NewPoolCalculationEntries(poolName)` — a pool
row holding one faked-container entry named after the pool, with an empty
per-NUMA result map. -/
def NewPoolCalculationEntries (poolName : String) : CalculationEntries :=
  ⟨[(FakedContainerName, ⟨poolName, []⟩)]⟩

/-- Record a NUMA calculation result under the faked-container entry of a
pool row (`poolEntry.Entries[FakedContainerName].CalculationResultsByNumas[numa] = r`). -/
def setPoolNumaResult (ce : CalculationEntries) (numa : Int)
    (r : NumaCalculationResult) : CalculationEntries :=
  ⟨updateA
    (fun ci =>
      { ci with calculationResultsByNumas := insertA ci.calculationResultsByNumas numa r })
    ce.entries FakedContainerName⟩

/-- Modelled from the spec: `getNumaCalculationResult(map, poolName,
containerName, numaID)` — resolve the per-NUMA result of one entry. -/
def getNumaCalculationResult (m : CEMap) (entryName containerName : String)
    (numa : Int) : Option NumaCalculationResult :=
  match lookupA m entryName with
  | none => none
  | some ce =>
    match lookupA ce.entries containerName with
    | none => none
    | some ci => lookupA ci.calculationResultsByNumas numa

/-! ## Advisory result (`types.InternalCPUCalculationResult`) -/

/-- One auxiliary (non-container-level) advisory entry. -/
structure ExtraEntry : Type where
  cgroupPath : String
  values : List (String × String)
  deriving DecidableEq

/-- `types.InternalCPUCalculationResult`: per-pool per-NUMA sizes, the
overlap flag, the pool-overlap sizing (modelled from the spec:
`GetPoolOverlapInfo(pool, numa)` keyed by pool then NUMA index, yielding
the overlapping size per shared pool), and the auxiliary entries. -/
structure InternalCPUCalculationResult : Type where
  poolEntries : List (String × List (Int × Nat))
  allowSharedCoresOverlapReclaimedCores : Bool
  poolOverlapInfo : List (String × List (Int × List (String × Nat)))
  extraEntries : List ExtraEntry
  deriving DecidableEq

/-- Modelled from the spec: `advisorResp.GetPoolOverlapInfo(poolName,
numaID)` — the overlapping capacity of each shared pool for this pool on
this NUMA index (empty when no overlap sizing is given). -/
def InternalCPUCalculationResult.GetPoolOverlapInfo
    (r : InternalCPUCalculationResult) (poolName : String) (numa : Int) :
    List (String × Nat) :=
  match lookupA r.poolOverlapInfo poolName with
  | none => []
  | some m => (lookupA m numa).getD []

/-! ## Response assembly: pool entries (`assemblePoolEntries`) -/

/-- The per-NUMA body of the main pool loop: one fresh block per NUMA index
sized to the pool's capacity there, joined standalone into the registry and
recorded under the pool's per-NUMA result. -/
def poolEntryFold (poolName : String) :
    List (Int × Nat) → CalculationEntries → AsmState → CalculationEntries × AsmState
  | [], ce, s => (ce, s)
  | (numa, size) :: rest, ce, s =>
    let (obj, bid, s) := NewBlock size none s
    let ncr : NumaCalculationResult := ⟨[obj]⟩
    let s := (NewInnerBlock obj numa poolName none).join bid s
    poolEntryFold poolName rest (setPoolNumaResult ce numa ncr) s

/-- The main pool loop of `assemblePoolEntries`: every pool of the advisory
result except the reclaimed pool when the overlap flag is set. -/
def mainPoolLoop (overlapFlag : Bool) :
    List (String × List (Int × Nat)) → CEMap → AsmState → CEMap × AsmState
  | [], m, s => (m, s)
  | (poolName, entries) :: rest, m, s =>
    if poolName = PoolNameReclaim ∧ overlapFlag then
      mainPoolLoop overlapFlag rest m s
    else
      let (ce, s) := poolEntryFold poolName entries (NewPoolCalculationEntries poolName) s
      mainPoolLoop overlapFlag rest (insertA m poolName ce) s

/-- The inner loop of the reclaimed pool's overlap branch: for each shared
pool with overlap sizing, create a block of the overlapping capacity (the
block is allocated before the check, as in the source) and append and join
it only when the shared pool has exactly one block on this NUMA index. -/
def reclaimOverlapFold (advisorResp : InternalCPUCalculationResult) (m : CEMap)
    (numa : Int) :
    List (String × Nat) → List Nat → AsmState → List Nat × AsmState
  | [], blocks, s => (blocks, s)
  | (sharedPoolName, reclaimedSize) :: rest, blocks, s =>
    let (obj, _bid, s) := NewBlock reclaimedSize none s
    match getNumaCalculationResult m sharedPoolName FakedContainerName numa with
    | some sharedPoolCalculationResults =>
      match sharedPoolCalculationResults.blocks with
      | [target] =>
        let s := (NewInnerBlock obj numa PoolNameReclaim none).join (blockBid s target) s
        reclaimOverlapFold advisorResp m numa rest (blocks ++ [obj]) s
      | _ => reclaimOverlapFold advisorResp m numa rest blocks s
    | none => reclaimOverlapFold advisorResp m numa rest blocks s

/-- The reclaimed pool's separate assembly when the overlap flag is set:
per NUMA index, either one standalone block of the reclaim capacity (no
overlap sizing) or the overlap-joined blocks of `reclaimOverlapFold`. -/
def reclaimPoolFold (advisorResp : InternalCPUCalculationResult) (m : CEMap) :
    List (Int × Nat) → CalculationEntries → AsmState → CalculationEntries × AsmState
  | [], ce, s => (ce, s)
  | (numa, reclaimSize) :: rest, ce, s =>
    let overlapSize := advisorResp.GetPoolOverlapInfo PoolNameReclaim numa
    if overlapSize = [] then
      let (obj, bid, s) := NewBlock reclaimSize none s
      let s := (NewInnerBlock obj numa PoolNameReclaim none).join bid s
      reclaimPoolFold advisorResp m rest (setPoolNumaResult ce numa ⟨[obj]⟩) s
    else
      let (blocks, s) := reclaimOverlapFold advisorResp m numa overlapSize [] s
      reclaimPoolFold advisorResp m rest (setPoolNumaResult ce numa ⟨blocks⟩) s

/-- `cpuServer.assemblePoolEntries`: the main pool loop, then, when the
overlap flag is set and the reclaimed pool is present in the advisory
result, its separate overlap-aware assembly. -/
def assemblePoolEntries (advisorResp : InternalCPUCalculationResult)
    (m : CEMap) (s : AsmState) : CEMap × AsmState :=
  let (m, s) :=
    mainPoolLoop advisorResp.allowSharedCoresOverlapReclaimedCores
      advisorResp.poolEntries m s
  match lookupA advisorResp.poolEntries PoolNameReclaim,
        advisorResp.allowSharedCoresOverlapReclaimedCores with
  | some reclaimEntries, true =>
    let (ce, s) :=
      reclaimPoolFold advisorResp m reclaimEntries
        (NewPoolCalculationEntries PoolNameReclaim) s
    (insertA m PoolNameReclaim ce, s)
  | _, _ => (m, s)

/-! ## Response assembly: pod entries (`assemblePodEntries`) -/

/-- The effective (published) owner-pool name of a container (the
adjustments at the top of `assemblePodEntries`): with isolation locking in
and exactly one isolation region distinct from the owner pool, the region
name; with isolation locking out and the owner pool differing from the
origin owner pool, the origin owner pool. -/
def effectiveOwnerPoolName (ci : ContainerInfo) : String :=
  let n :=
    if ci.isolated then
      match ci.regionNames with
      | [r] => if ci.ownerPoolName ≠ r then r else ci.ownerPoolName
      | _ => ci.ownerPoolName
    else ci.ownerPoolName
  if ¬ ci.isolated ∧ ci.ownerPoolName ≠ ci.originOwnerPoolName then
    ci.originOwnerPoolName
  else n

/-- The sidecar path: scan the pod's already-assembled container entries
for the first one carrying a result on this NUMA index and reuse its
blocks verbatim (same identifier, same size), joining each copy against
the original identifier. -/
def sidecarCopyBlocks (ci : ContainerInfo) (numa : Int) :
    List Nat → List Nat → AsmState → List Nat × AsmState
  | [], blocks, s => (blocks, s)
  | obj :: rest, blocks, s =>
    match lookupA s.store obj with
    | none => sidecarCopyBlocks ci numa rest blocks s
    | some d =>
      let (newObj, _bid, s) := NewBlock d.result (some d.blockId) s
      let s := (NewInnerBlock newObj numa "" (some ci)).join d.blockId s
      sidecarCopyBlocks ci numa rest (blocks ++ [newObj]) s

/-- Find the first sibling entry with a result on this NUMA index
(`for _, containerEntry := range podEntries.Entries { ... break }`). -/
def firstSiblingResult (numa : Int) :
    List (String × CalculationInfo) → Option NumaCalculationResult
  | [] => none
  | (_, cinfo) :: rest =>
    match lookupA cinfo.calculationResultsByNumas numa with
    | some result => some result
    | none => firstSiblingResult numa rest

/-- The reclaimed-pool path for the first container of a pod: for each
block of the reclaimed pool on this NUMA index, allocate a fresh block of
the container's CPU-set cardinality and join it against the reclaimed
block, but only when that reclaimed block has no overlap targets yet. -/
def reclaimJoinBlocks (ci : ContainerInfo) (numa : Int) (cpusetSize : Nat) :
    List Nat → List Nat → AsmState → List Nat × AsmState
  | [], blocks, s => (blocks, s)
  | obj :: rest, blocks, s =>
    if blockTargets s obj = [] then
      let (newObj, _bid, s) := NewBlock cpusetSize none s
      let s := (NewInnerBlock newObj numa "" (some ci)).join (blockBid s obj) s
      reclaimJoinBlocks ci numa cpusetSize rest (blocks ++ [newObj]) s
    else
      reclaimJoinBlocks ci numa cpusetSize rest blocks s

/-- The per-NUMA loop of `assemblePodEntries` for a dedicated NUMA-binding
container: sidecar reuse when the pod already has entries, otherwise a
standalone block (no reclaimed pool on this NUMA index) or a join against
the reclaimed pool's unclaimed block. -/
def podNumaFold (m : CEMap) (podUID : String) (ci : ContainerInfo) :
    List (Int × List Nat) → List (Int × NumaCalculationResult) → AsmState →
      List (Int × NumaCalculationResult) × AsmState
  | [], acc, s => (acc, s)
  | (numa, cpuset) :: rest, acc, s =>
    let (blocks, s) :=
      match lookupA m podUID with
      | some podEntries =>
        match firstSiblingResult numa podEntries.entries with
        | some result => sidecarCopyBlocks ci numa result.blocks [] s
        | none => ([], s)
      | none =>
        match getNumaCalculationResult m PoolNameReclaim FakedContainerName numa with
        | none =>
          let (obj, bid, s) := NewBlock cpuset.length none s
          let s := (NewInnerBlock obj numa "" (some ci)).join bid s
          ([obj], s)
        | some reclaimPoolCalculationResults =>
          reclaimJoinBlocks ci numa cpuset.length
            reclaimPoolCalculationResults.blocks [] s
    podNumaFold m podUID ci rest (insertA acc numa ⟨blocks⟩) s

/-- `cpuServer.assemblePodEntries`: build the calculation info of one
container.  Shared/reclaimed containers with an empty or unknown effective
pool name are skipped without error; dedicated NUMA-binding containers get
per-NUMA blocks.  Returns the updated response map, the updated assembly
state, and the error (always `none`, as every path of the source returns
`nil`). -/
def assemblePodEntries (m : CEMap) (s : AsmState) (podUID : String)
    (ci : ContainerInfo) : CEMap × AsmState × Option String :=
  let eff := effectiveOwnerPoolName ci
  let isSharedOrReclaimed :=
    ci.qosLevel = QoSLevel.sharedCores ∨ ci.qosLevel = QoSLevel.reclaimedCores
  if isSharedOrReclaimed ∧ eff = "" then (m, s, none)
  else if isSharedOrReclaimed ∧ (lookupA m eff).isNone then (m, s, none)
  else
    let (results, s) :=
      if ci.IsDedicatedNumaBinding then
        podNumaFold m podUID ci ci.topologyAwareAssignments [] s
      else ([], s)
    let calculationInfo : CalculationInfo := ⟨eff, results⟩
    let ce := (lookupA m podUID).getD ⟨[]⟩
    let ce : CalculationEntries := ⟨insertA ce.entries ci.containerName calculationInfo⟩
    (insertA m podUID ce, s, none)

/-! ## Full response assembly and the advisory loop -/

/-- Merge the advisory result's auxiliary entries into the response,
deduplicating by cgroup path: an existing entry with the same path absorbs
the new values, otherwise the entry is appended with copied values. -/
def mergeExtraEntries : List ExtraEntry → List ExtraEntry → List ExtraEntry
  | [], acc => acc
  | e :: rest, acc =>
    if (acc.find? fun r => r.cgroupPath = e.cgroupPath).isSome then
      mergeExtraEntries rest
        (acc.map fun r =>
          if r.cgroupPath = e.cgroupPath then
            { r with values := e.values.foldl (fun vs kv => insertA vs kv.1 kv.2) r.values }
          else r)
    else mergeExtraEntries rest (acc ++ [e])

/-- The well-known key of the serialized per-NUMA headroom map
(`cpuadvisor.ControlKnobKeyCPUNUMAHeadroom`). -/
def ControlKnobKeyCPUNUMAHeadroom : String := "cpu_numa_headroom"

/-- Modelled from the spec: the JSON serialization of the per-NUMA
headroom map (a float map in the source) is abstracted to a deterministic
rendering of the per-NUMA milli-values. -/
def encodeNumaHeadroom (numaAllocatable : List (Int × Int)) : String :=
  toString (numaAllocatable.map fun p => (p.1, p.2))

/-- `cpuServer.assembleHeadroom`: the auxiliary per-NUMA headroom entry
(keyed by the empty cgroup path); a failed allocatable lookup yields no
entry. -/
def assembleHeadroom (numaAllocatable : Option (List (Int × Int))) :
    Option ExtraEntry :=
  match numaAllocatable with
  | none => none
  | some m => some ⟨"", [(ControlKnobKeyCPUNUMAHeadroom, encodeNumaHeadroom m)]⟩

/-- The fold over the metacache's containers that assembles pod entries
(`metaCache.RangeContainer` with `assemblePodEntries`, per-entity errors
logged and skipped). -/
def assembleAllPods : List ((String × String) × ContainerInfo) →
    CEMap → AsmState → CEMap × AsmState
  | [], m, s => (m, s)
  | ((podUID, _), ci) :: rest, m, s =>
    let (m, s, _) := assemblePodEntries m s podUID ci
    assembleAllPods rest m s

/-- The assembled wire response: pod/pool entries, auxiliary entries, the
overlap flag, and the final block store interpreting the block object ids
of the entries. -/
structure LWResponse : Type where
  entries : CEMap
  extraEntries : List ExtraEntry
  allowSharedCoresOverlapReclaimedCores : Bool
  finalState : AsmState
  deriving DecidableEq

/-- `cpuServer.assembleResponse`: pool entries first, then pod entries from
the cache, then the merged auxiliary entries and the headroom entry. -/
def assembleResponse (advisorResp : InternalCPUCalculationResult)
    (numaAllocatable : Option (List (Int × Int))) (cache : MetaCache) : LWResponse :=
  let (m, s) := assemblePoolEntries advisorResp [] AsmState.init
  let (m, s) := assembleAllPods cache.containers m s
  let extra := mergeExtraEntries advisorResp.extraEntries []
  let extra :=
    match assembleHeadroom numaAllocatable with
    | some e => extra ++ [e]
    | none => extra
  ⟨m, extra, advisorResp.allowSharedCoresOverlapReclaimedCores, s⟩

/-- `cpuServer.shouldTriggerAdvisorUpdate`: pushes are suppressed during
the startup window and while the mandatory reserve pool is absent from the
cache. -/
def shouldTriggerAdvisorUpdate (inStartupWindow : Bool) (cache : MetaCache) : Bool :=
  if inStartupWindow then false
  else (cache.GetPoolInfo PoolNameReserve).isSome

/-- The external inputs of one advisory tick: the checkpoint fetch outcome
(`none` models a transport failure or a nil response), the safe-time fence,
the pod-lookup oracle, whether the tick is inside the startup window, the
advisory engine outcome (`none` models an update failure or an unexpected
result type), the headroom lookup outcome, and whether the stream send
succeeds. -/
structure TickInput : Type where
  checkpoint : Option Checkpoint
  safeTime : Int
  pods : PodOracle
  inStartupWindow : Bool
  advice : Option InternalCPUCalculationResult
  numaAllocatable : Option (List (Int × Int))
  sendOk : Bool

/-- `cpuServer.getAndPushAdvice`: fetch-and-reconcile the checkpoint (a
failure aborts the tick), gate-check (suppressing the push is not an
error), compute the advice, assemble and send.  Returns the updated cache
and the tick's error. -/
def getAndPushAdvice (t : TickInput) (cache : MetaCache) : MetaCache × Option String :=
  match t.checkpoint with
  | none => (cache, some "get checkpoint failed")
  | some cp =>
    let cache := syncCheckpoint cp t.pods t.safeTime cache
    if ¬ shouldTriggerAdvisorUpdate t.inStartupWindow cache then (cache, none)
    else
      match t.advice with
      | none => (cache, some "get advice failed")
      | some advisorResp =>
        let _resp := assembleResponse advisorResp t.numaAllocatable cache
        if t.sendOk then (cache, none)
        else (cache, some "send listWatch response failed")

/-- The observable server state around the streaming loop: the single
flight flag (`hasListAndWatchLoop`) and the metacache. -/
structure ServerState : Type where
  hasLoop : Bool
  cache : MetaCache
  deriving DecidableEq

/-- The timer-driven tick loop: each tick's failure is logged and reported,
never fatal; the loop runs until the stream context or the stop channel
fires (modelled as the end of the tick list). -/
def runTicks : List TickInput → MetaCache → MetaCache
  | [], cache => cache
  | t :: rest, cache => runTicks rest (getAndPushAdvice t cache).1

/-- `cpuServer.ListAndWatch`: single-flight entry guard (an atomic swap of
the loop flag; a second entry fails immediately with an already-running
error and touches nothing), client creation (a failure releases the flag
and returns), then the tick loop; the deferred store releases the flag on
every exit path.  `ticks` is the finite sequence of timer fires before the
stream context or stop channel ends the loop. -/
def ListAndWatch (clientOk : Bool) (ticks : List TickInput) (st : ServerState) :
    Option String × ServerState :=
  if st.hasLoop then (some "another ListAndWatch loop is running", st)
  else
    let st := { st with hasLoop := true }
    if ¬ clientOk then
      (some "create cpu plugin client failed", { st with hasLoop := false })
    else
      let cache := runTicks ticks st.cache
      (none, { hasLoop := false, cache := cache })

/-- A recorded `updateContainerInfo` call: target key, QoS-lookup outcome
and checkpoint row (the reconciler applies such calls in sequence, dropping
per-call errors). -/
structure UpdateCall : Type where
  podUID : String
  containerName : String
  qosResult : Option QoSLevel
  info : AllocationInfo

/-- Apply a sequence of `updateContainerInfo` calls, keeping the cache of
each step and discarding per-call errors (as `syncCheckpoint` does). -/
def applyUpdates : List UpdateCall → MetaCache → MetaCache
  | [], cache => cache
  | u :: rest, cache =>
    applyUpdates rest (updateContainerInfo u.podUID u.containerName u.qosResult u.info cache).1

/-! ## Proof-side definitions (fixtures and auxiliary predicates) -/

/-- A dedicated NUMA-binding container fixture (owner and origin pool
coincide, isolation off). -/
def mkDedicatedContainer (p c pool : String) (taa : CPUAssignment) : ContainerInfo :=
  ⟨p, c, QoSLevel.dedicatedCores, pool, pool, false, false, [], taa, taa, true, 0⟩

/-- Agreement of the GC-relevant fields (pod UID, container name,
timestamp) between the optional cache rows before and after an update. -/
def pctAgree : Option ContainerInfo → Option ContainerInfo → Prop
  | none, none => True
  | some a, some b =>
      b.podUID = a.podUID ∧ b.containerName = a.containerName ∧ b.timestamp = a.timestamp
  | _, _ => False

/-- The stale container of the C5 witness scenario (its pod is absent from
the witness checkpoint). -/
def c5stale : ContainerInfo :=
  ⟨"gone", "c", QoSLevel.sharedCores, "dead", "dead", false, false, [], [], [], false, 0⟩

/-- The cache of the C5 witness scenario: a live container owned by pool
`"share"` and a stale one owned by pool `"dead"`. -/
def c5cache : MetaCache :=
  ⟨[("share", ⟨"share", [], []⟩), ("dead", ⟨"dead", [], []⟩)],
    [(("u", "c"),
      ⟨"u", "c", QoSLevel.sharedCores, "share", "share", false, false, [], [], [], false, 0⟩),
     (("gone", "c"), c5stale)]⟩

/-- The checkpoint of the C5 witness scenario: only the live container's
pod, no pool rows at all (so `"share"` survives only through the surviving
container's origin owner pool). -/
def c5cp : Checkpoint := [("u", [("c", ⟨"share", false, [], []⟩)])]

/-- The pod oracle of the C5 witness scenario. -/
def c5pods : PodOracle := [("u", some QoSLevel.sharedCores)]

/-! ## Association-list lemmas -/

theorem lookupA_insertA_self {α β : Type} [DecidableEq α] (l : List (α × β)) (k : α) (v : β) :
    lookupA (insertA l k v) k = some v := by
  induction l with
  | nil => simp [insertA, lookupA]
  | cons h t ih =>
    by_cases hk : k = h.1
    · simp [insertA, lookupA, hk]
    · simp [insertA, lookupA, hk, ih]

theorem lookupA_insertA_ne {α β : Type} [DecidableEq α] (l : List (α × β)) (k a : α) (v : β)
    (h : a ≠ k) : lookupA (insertA l k v) a = lookupA l a := by
  induction l with
  | nil => simp [insertA, lookupA, h]
  | cons hd t ih =>
    by_cases hk : k = hd.1
    · subst hk
      simp [insertA, lookupA, h]
    · by_cases ha : a = hd.1
      · simp [insertA, lookupA, hk, ha]
      · simp [insertA, lookupA, hk, ha, ih]

/-! ## C10: a failed QoS lookup leaves the cached record untouched -/

/-- The updated-copy value built by `updateContainerInfo` before the QoS
lookup (used to express that those mutations are not persisted on the
error path). -/
theorem updateContainerInfo_qos_failure (podUID containerName : String)
    (info : AllocationInfo) (cache : MetaCache) (ci : ContainerInfo)
    (h : cache.GetContainerInfo podUID containerName = some ci) :
    updateContainerInfo podUID containerName none info cache =
      (cache, some "get qos level failed") := by
  unfold updateContainerInfo
  rw [h]

/-- C10: when `updateContainerInfo` fails the QoS-level lookup for a
container's pod, it returns an error before calling `SetContainerInfo`, so
the cached container record is exactly what it was before the call: the
earlier mutations of the local copy (ramp-up flag, topology assignments,
owner pool) are not persisted. -/
theorem C10_qos_failure_is_atomic (podUID containerName : String)
    (info : AllocationInfo) (cache : MetaCache) (ci : ContainerInfo)
    (h : cache.GetContainerInfo podUID containerName = some ci) :
    (updateContainerInfo podUID containerName none info cache).1 = cache ∧
      (updateContainerInfo podUID containerName none info cache).2.isSome ∧
      (updateContainerInfo podUID containerName none info cache).1.GetContainerInfo
          podUID containerName = some ci := by
  rw [updateContainerInfo_qos_failure podUID containerName info cache ci h]
  exact ⟨rfl, rfl, h⟩

/-- Witness for C10 at a concrete cache. -/
theorem C10_qos_failure_is_atomic_witness :
    let ci : ContainerInfo :=
      ⟨"u", "c", QoSLevel.sharedCores, "share", "share", false, false, [], [], [], false, 0⟩
    let cache : MetaCache := ⟨[], [(("u", "c"), ci)]⟩
    let info : AllocationInfo := ⟨"other", true, [(0, [0, 1])], []⟩
    (updateContainerInfo "u" "c" none info cache).1 = cache ∧
      (updateContainerInfo "u" "c" none info cache).2.isSome ∧
      (updateContainerInfo "u" "c" none info cache).1.GetContainerInfo "u" "c" =
        some ci := by
  exact C10_qos_failure_is_atomic "u" "c" _ _ _ (by decide)

/-! ## C8: shared/reclaimed containers with a bad pool name are skipped -/

/-- C8: for a container of shared or reclaimed QoS level whose effective
(published) owner-pool name is empty or names a pool with no assembled
entry, `assemblePodEntries` returns without error and without touching the
response map or the block state — the container is omitted and assembly
continues. -/
theorem C8_bad_pool_name_skips_container (m : CEMap) (s : AsmState)
    (podUID : String) (ci : ContainerInfo)
    (hq : ci.qosLevel = QoSLevel.sharedCores ∨ ci.qosLevel = QoSLevel.reclaimedCores)
    (hp : effectiveOwnerPoolName ci = "" ∨
      (lookupA m (effectiveOwnerPoolName ci)).isNone) :
    assemblePodEntries m s podUID ci = (m, s, none) := by
  unfold assemblePodEntries
  rcases hp with he | hl
  · simp [he, hq]
  · by_cases he : effectiveOwnerPoolName ci = ""
    · simp [he, hq]
    · simp [he, hl, hq]

/-- Witness for C8: a reclaimed-cores container naming an unknown pool. -/
theorem C8_bad_pool_name_skips_container_witness :
    let ci : ContainerInfo :=
      ⟨"u", "c", QoSLevel.reclaimedCores, "ghost", "ghost", false, false, [], [], [], false, 0⟩
    assemblePodEntries [] AsmState.init "u" ci = ([], AsmState.init, none) := by
  exact C8_bad_pool_name_skips_container [] AsmState.init "u" _ (by decide) (by right; decide)

/-! ## C9: single-flight guard of `ListAndWatch` -/

/-- C9: a second `ListAndWatch` call while the loop flag is set returns the
already-running error immediately, without running any tick and without
touching the server state; and starting from a clear flag, every exit path
of the loop releases the flag. -/
theorem C9_single_flight (clientOk : Bool) (ticks : List TickInput) (st : ServerState) :
    (st.hasLoop = true →
      ListAndWatch clientOk ticks st = (some "another ListAndWatch loop is running", st)) ∧
    (st.hasLoop = false → (ListAndWatch clientOk ticks st).2.hasLoop = false) := by
  constructor
  · intro h
    unfold ListAndWatch
    simp [h]
  · intro h
    unfold ListAndWatch
    by_cases hc : clientOk <;> simp [h, hc]

/-- Witness for C9: a concrete busy server rejects the call unchanged, and
a concrete idle server ends with the flag released. -/
theorem C9_single_flight_witness :
    ListAndWatch true [] ⟨true, ⟨[], []⟩⟩ =
      (some "another ListAndWatch loop is running", ⟨true, ⟨[], []⟩⟩) ∧
    (ListAndWatch false [] ⟨false, ⟨[], []⟩⟩).2.hasLoop = false := by
  exact ⟨(C9_single_flight true [] ⟨true, ⟨[], []⟩⟩).1 rfl,
    (C9_single_flight false [] ⟨false, ⟨[], []⟩⟩).2 rfl⟩

/-! ## C3: `OriginOwnerPoolName` is immutable once non-empty -/

/-- One `updateContainerInfo` call never changes or clears a non-empty
origin owner pool of any cached container. -/
theorem updateContainerInfo_preserves_origin (u cn : String) (q : Option QoSLevel)
    (i : AllocationInfo) (cache : MetaCache) (p c : String) (ci : ContainerInfo)
    (h : cache.GetContainerInfo p c = some ci) (hne : ci.originOwnerPoolName ≠ "") :
    ∃ ci', (updateContainerInfo u cn q i cache).1.GetContainerInfo p c = some ci' ∧
      ci'.originOwnerPoolName = ci.originOwnerPoolName := by
  by_cases hk : (p, c) = (u, cn)
  · obtain ⟨hp, hc⟩ := Prod.mk.injEq .. ▸ hk
    subst hp; subst hc
    unfold updateContainerInfo
    rw [h]
    match q with
    | none => exact ⟨ci, h, rfl⟩
    | some qos =>
      simp only [MetaCache.SetContainerInfo, MetaCache.GetContainerInfo]
      refine ⟨_, lookupA_insertA_self .., ?_⟩
      by_cases hq : ci.qosLevel ≠ qos <;>
        simp [hq, hne] <;>
        split <;>
        (try split) <;>
        rfl
  · unfold updateContainerInfo
    match hg : cache.GetContainerInfo u cn with
    | none => exact ⟨ci, h, rfl⟩
    | some ci0 =>
      match q with
      | none => exact ⟨ci, h, rfl⟩
      | some qos =>
        refine ⟨ci, ?_, rfl⟩
        simpa [MetaCache.SetContainerInfo, MetaCache.GetContainerInfo,
          lookupA_insertA_ne _ _ _ _ hk] using h

/-- C3: once a cached container's `OriginOwnerPoolName` holds a non-empty
value, it is never changed or cleared across arbitrarily many
`updateContainerInfo` calls with arbitrary inputs. -/
theorem C3_origin_owner_pool_immutable (calls : List UpdateCall) (cache : MetaCache)
    (p c : String) (ci : ContainerInfo)
    (h : cache.GetContainerInfo p c = some ci) (hne : ci.originOwnerPoolName ≠ "") :
    ∃ ci', (applyUpdates calls cache).GetContainerInfo p c = some ci' ∧
      ci'.originOwnerPoolName = ci.originOwnerPoolName := by
  induction calls generalizing cache ci with
  | nil => exact ⟨ci, h, rfl⟩
  | cons u rest ih =>
    obtain ⟨ci', h', heq⟩ :=
      updateContainerInfo_preserves_origin u.podUID u.containerName u.qosResult u.info
        cache p c ci h hne
    obtain ⟨ci'', h'', heq'⟩ := ih _ ci' h' (heq ▸ hne)
    exact ⟨ci'', h'', heq'.trans heq⟩

/-- Witness for C3: a concrete container with origin pool `"share"` keeps
it across two reconciling calls that try to re-own it. -/
theorem C3_origin_owner_pool_immutable_witness :
    ∃ ci', (applyUpdates
        [⟨"u", "c", some QoSLevel.sharedCores, ⟨"other", false, [], []⟩⟩,
         ⟨"u", "c", some QoSLevel.reclaimedCores, ⟨"", true, [], []⟩⟩]
        ⟨[], [(("u", "c"),
          ⟨"u", "c", QoSLevel.sharedCores, "share", "share", false, false, [], [], [],
            false, 0⟩)]⟩).GetContainerInfo "u" "c" = some ci' ∧
      ci'.originOwnerPoolName = "share" := by
  exact C3_origin_owner_pool_immutable _ _ "u" "c"
    ⟨"u", "c", QoSLevel.sharedCores, "share", "share", false, false, [], [], [], false, 0⟩
    (by decide) (by decide)

/-! ## C2: checkpoint mention does not create container records -/

theorem lookupA_filter_none {α β : Type} [DecidableEq α] (l : List (α × β))
    (f : α × β → Bool) (k : α) (h : lookupA l k = none) :
    lookupA (l.filter f) k = none := by
  induction l with
  | nil => simp [lookupA]
  | cons hd t ih =>
    rw [lookupA] at h
    by_cases hk : k = hd.1
    · simp [hk] at h
    · rw [if_neg hk] at h
      by_cases hf : f hd
      · simp [List.filter, hf, lookupA, hk, ih h]
      · simp [List.filter, hf, ih h]

/-- `updateContainerInfo` on a pair absent from the cache returns the
not-exist error with the cache untouched. -/
theorem updateContainerInfo_absent (u cn : String) (q : Option QoSLevel)
    (i : AllocationInfo) (cache : MetaCache)
    (h : cache.GetContainerInfo u cn = none) :
    updateContainerInfo u cn q i cache = (cache, some "container not exist") := by
  unfold updateContainerInfo
  rw [h]

/-- One `updateContainerInfo` call never creates a container record. -/
theorem updateContainerInfo_no_create (u cn : String) (q : Option QoSLevel)
    (i : AllocationInfo) (cache : MetaCache) (p c : String)
    (h : cache.GetContainerInfo p c = none) :
    (updateContainerInfo u cn q i cache).1.GetContainerInfo p c = none := by
  unfold updateContainerInfo
  match hg : cache.GetContainerInfo u cn with
  | none => exact h
  | some ci0 =>
    match q with
    | none => exact h
    | some qos =>
      have hk : (p, c) ≠ (u, cn) := by
        intro he
        obtain ⟨hp, hc⟩ := Prod.mk.injEq .. ▸ he
        subst hp; subst hc
        rw [hg] at h
        exact Option.noConfusion h
      simpa [MetaCache.SetContainerInfo, MetaCache.GetContainerInfo,
        lookupA_insertA_ne _ _ _ _ hk] using h

/-- The container-ingestion inner loop never creates a container record. -/
theorem ingestPodContainers_no_create (u : String) (q : Option QoSLevel)
    (rows : List (String × AllocationInfo)) (cache : MetaCache) (p c : String)
    (h : cache.GetContainerInfo p c = none) :
    (ingestPodContainers u q rows cache).GetContainerInfo p c = none := by
  induction rows generalizing cache with
  | nil => exact h
  | cons r rest ih =>
    exact ih _ (updateContainerInfo_no_create u r.1 q r.2 cache p c h)

/-- The container-ingestion pass never creates a container record. -/
theorem ingestContainers_no_create (pods : PodOracle) (cp : Checkpoint)
    (cache : MetaCache) (p c : String)
    (h : cache.GetContainerInfo p c = none) :
    (ingestContainers pods cp cache).GetContainerInfo p c = none := by
  induction cp generalizing cache with
  | nil => exact h
  | cons e rest ih =>
    rw [ingestContainers]
    by_cases hs : (lookupA e.2 FakedContainerName).isSome
    · simp only [hs, if_true]
      exact ih _ h
    · simp only [hs, if_false]
      match lookupA pods e.1 with
      | none => exact ih _ h
      | some qosResult =>
        exact ih _ (ingestPodContainers_no_create e.1 qosResult e.2 cache p c h)

/-- Pool ingestion leaves the container registry untouched. -/
theorem ingestPools_containers (cp : Checkpoint) (cache : MetaCache) :
    (ingestPools cp cache).containers = cache.containers := by
  induction cp generalizing cache with
  | nil => rfl
  | cons e rest ih =>
    rw [ingestPools]
    match lookupA e.2 FakedContainerName with
    | some info => exact ih _
    | none => exact ih _

/-- C2 counterexample: a checkpoint entry naming the pair `("p", "c")`,
absent from the cache, does not result in a cached container record —
reconciliation of this checkpoint against the empty cache leaves the pair
absent, contradicting the claim at this input. -/
theorem C2_counterexample :
    (syncCheckpoint [("p", [("c", ⟨"share", false, [(0, [0])], [(0, [0])]⟩)])]
        [("p", some QoSLevel.sharedCores)] 0 ⟨[], []⟩).GetContainerInfo "p" "c" =
      none := by
  decide

/-- C2 (amended): a checkpoint entry naming a (pod UID, container name)
pair not yet present in the cache does not create a record: the per-entry
update fails with the not-exist error and leaves the cache untouched, and
a whole reconciliation pass never creates a container record for an
absent pair. -/
theorem C2_no_creation_on_first_mention :
    (∀ (u cn : String) (q : Option QoSLevel) (i : AllocationInfo) (cache : MetaCache),
      cache.GetContainerInfo u cn = none →
        updateContainerInfo u cn q i cache = (cache, some "container not exist")) ∧
    (∀ (cp : Checkpoint) (pods : PodOracle) (safeTime : Int) (cache : MetaCache)
      (p c : String), cache.GetContainerInfo p c = none →
        (syncCheckpoint cp pods safeTime cache).GetContainerInfo p c = none) := by
  refine ⟨updateContainerInfo_absent, ?_⟩
  intro cp pods safeTime cache p c h
  unfold syncCheckpoint
  apply lookupA_filter_none
  apply ingestContainers_no_create
  show (ingestPools cp cache).GetContainerInfo p c = none
  unfold MetaCache.GetContainerInfo
  rw [ingestPools_containers]
  exact h

/-- Witness for C2 (amended) at a concrete absent pair. -/
theorem C2_no_creation_on_first_mention_witness :
    updateContainerInfo "p" "c" (some QoSLevel.sharedCores) ⟨"share", false, [], []⟩
        ⟨[], []⟩ = (⟨[], []⟩, some "container not exist") ∧
    (syncCheckpoint [("p", [("c", ⟨"share", false, [], []⟩)])]
        [("p", some QoSLevel.sharedCores)] 0 ⟨[], []⟩).GetContainerInfo "p" "c" =
      none := by
  exact ⟨C2_no_creation_on_first_mention.1 "p" "c" _ _ _ (by decide),
    C2_no_creation_on_first_mention.2 _ _ 0 _ "p" "c" (by decide)⟩

/-! ## C7: sidecar reuse of the first sibling's blocks -/

/-- C7: two dedicated NUMA-binding containers of the same pod UID assembled
in one pass (no reclaimed pool present): the second container's entry for
the shared NUMA index reuses the first sibling's block verbatim — the same
block identifier and the same size (the first container's CPU-set
cardinality, even when the sidecar's own CPU set differs) — instead of
allocating new capacity. -/
theorem C7_sidecar_reuse (p pool c1 c2 : String) (hc : c2 ≠ c1) (cs1 cs2 : List Nat)
    (r1 r2 : CEMap × AsmState × Option String)
    (h1 : r1 = assemblePodEntries [] AsmState.init p (mkDedicatedContainer p c1 pool [(0, cs1)]))
    (h2 : r2 = assemblePodEntries r1.1 r1.2.1 p (mkDedicatedContainer p c2 pool [(0, cs2)])) :
    getNumaCalculationResult r2.1 p c1 0 = some ⟨[0]⟩ ∧
    getNumaCalculationResult r2.1 p c2 0 = some ⟨[1]⟩ ∧
    blockInfo r2.2.1 0 = some (0, cs1.length) ∧
    blockInfo r2.2.1 1 = some (0, cs1.length) := by
  subst h1
  subst h2
  refine ⟨?_, ?_, ?_, ?_⟩ <;>
    simp [assemblePodEntries, mkDedicatedContainer, effectiveOwnerPoolName,
      ContainerInfo.IsDedicatedNumaBinding, podNumaFold, getNumaCalculationResult,
      lookupA, insertA, NewBlock, InnerBlock.join, NewInnerBlock, registerBlock,
      blockBid, blockInfo, addTarget, updateA, firstSiblingResult, sidecarCopyBlocks,
      FakedContainerName, PoolNameReclaim, hc, AsmState.init]

/-- Witness for C7 at concrete names and CPU sets of different sizes. -/
theorem C7_sidecar_reuse_witness :
    let r1 := assemblePodEntries [] AsmState.init "pod"
      (mkDedicatedContainer "pod" "main" "flink" [(0, [0, 1])])
    let r2 := assemblePodEntries r1.1 r1.2.1 "pod"
      (mkDedicatedContainer "pod" "sidecar" "flink" [(0, [7, 8, 9])])
    getNumaCalculationResult r2.1 "pod" "main" 0 = some ⟨[0]⟩ ∧
    getNumaCalculationResult r2.1 "pod" "sidecar" 0 = some ⟨[1]⟩ ∧
    blockInfo r2.2.1 0 = some (0, 2) ∧
    blockInfo r2.2.1 1 = some (0, 2) := by
  exact C7_sidecar_reuse "pod" "flink" "main" "sidecar" (by decide) [0, 1] [7, 8, 9]
    _ _ rfl rfl

/-! ## C1: reclaimed-pool double-claim by dedicated containers -/

/-- C1 counterexample: the reclaimed pool has one block on NUMA 0 and two
dedicated NUMA-binding containers of distinct pods are assembled.  The
first receives the overlap join, but the second's entry for NUMA 0 holds
an empty block list — it does not hold "a block with no overlap target" as
the claim states, because the fresh block is only allocated when the
reclaimed block is unclaimed. -/
theorem C1_counterexample :
    let resp : InternalCPUCalculationResult :=
      ⟨[(PoolNameReclaim, [(0, 4)])], false, [], []⟩
    let r0 := assemblePoolEntries resp [] AsmState.init
    let r1 := assemblePodEntries r0.1 r0.2 "pod1"
      (mkDedicatedContainer "pod1" "c1" "" [(0, [0, 1])])
    let r2 := assemblePodEntries r1.1 r1.2.1 "pod2"
      (mkDedicatedContainer "pod2" "c2" "" [(0, [2, 3, 4])])
    getNumaCalculationResult r2.1 "pod2" "c2" 0 = some ⟨[]⟩ ∧
    ((getNumaCalculationResult r2.1 "pod2" "c2" 0).getD ⟨[]⟩).blocks.length = 0 := by
  decide

/-- C1 (amended): during assembly of a dedicated NUMA-binding container's
per-NUMA blocks, when the reclaimed pool already has a block for that NUMA
index, a fresh block of the container's CPU-set cardinality is allocated
and joined against the reclaimed pool's block only if that reclaimed block
has no overlap targets yet; when two dedicated containers of distinct pod
UIDs target the same reclaimed block on one NUMA index, exactly one
receives the overlap join, and the other's entry for that NUMA index has
an empty block list — no block at all is allocated for it. -/
theorem C1_reclaim_double_claim (p1 p2 c1 c2 : String) (r : Nat) (cs1 cs2 : List Nat)
    (hp1 : p1 ≠ PoolNameReclaim) (hp2 : p2 ≠ PoolNameReclaim) (hp : p2 ≠ p1) :
    let resp : InternalCPUCalculationResult :=
      ⟨[(PoolNameReclaim, [(0, r)])], false, [], []⟩
    let r0 := assemblePoolEntries resp [] AsmState.init
    let r1 := assemblePodEntries r0.1 r0.2 p1 (mkDedicatedContainer p1 c1 "" [(0, cs1)])
    let r2 := assemblePodEntries r1.1 r1.2.1 p2 (mkDedicatedContainer p2 c2 "" [(0, cs2)])
    getNumaCalculationResult r2.1 PoolNameReclaim FakedContainerName 0 = some ⟨[0]⟩ ∧
    getNumaCalculationResult r2.1 p1 c1 0 = some ⟨[1]⟩ ∧
    blockInfo r2.2.1 1 = some (1, cs1.length) ∧
    blockTargets r2.2.1 1 = [0] ∧
    blockTargets r2.2.1 0 = [1] ∧
    getNumaCalculationResult r2.1 p2 c2 0 = some ⟨[]⟩ := by
  have hp1' : p1 ≠ "reclaim" := hp1
  have hp2' : p2 ≠ "reclaim" := hp2
  simp [assemblePoolEntries, mainPoolLoop, poolEntryFold, NewPoolCalculationEntries,
    setPoolNumaResult, assemblePodEntries, mkDedicatedContainer, effectiveOwnerPoolName,
    ContainerInfo.IsDedicatedNumaBinding, podNumaFold, getNumaCalculationResult,
    lookupA, insertA, NewBlock, InnerBlock.join, NewInnerBlock, registerBlock,
    blockBid, blockInfo, blockTargets, addTarget, updateA, firstSiblingResult,
    sidecarCopyBlocks, reclaimJoinBlocks, FakedContainerName, PoolNameReclaim,
    hp1', hp2', hp, AsmState.init]

/-- Witness for C1 (amended) at concrete pods and sizes. -/
theorem C1_reclaim_double_claim_witness :
    let resp : InternalCPUCalculationResult :=
      ⟨[(PoolNameReclaim, [(0, 4)])], false, [], []⟩
    let r0 := assemblePoolEntries resp [] AsmState.init
    let r1 := assemblePodEntries r0.1 r0.2 "pod1"
      (mkDedicatedContainer "pod1" "c1" "" [(0, [0, 1])])
    let r2 := assemblePodEntries r1.1 r1.2.1 "pod2"
      (mkDedicatedContainer "pod2" "c2" "" [(0, [2, 3, 4])])
    getNumaCalculationResult r2.1 PoolNameReclaim FakedContainerName 0 = some ⟨[0]⟩ ∧
    getNumaCalculationResult r2.1 "pod1" "c1" 0 = some ⟨[1]⟩ ∧
    blockInfo r2.2.1 1 = some (1, 2) ∧
    blockTargets r2.2.1 1 = [0] ∧
    blockTargets r2.2.1 0 = [1] ∧
    getNumaCalculationResult r2.1 "pod2" "c2" 0 = some ⟨[]⟩ := by
  exact C1_reclaim_double_claim "pod1" "pod2" "c1" "c2" 4 [0, 1] [2, 3, 4]
    (by decide) (by decide) (by decide)

/-! ## C6: overlap-aware assembly of the reclaimed pool -/

/-- C6: with the overlap flag set, the reclaimed pool is excluded from the
main pool loop and assembled separately.  Shared pool `S` (one block of
size `a` on NUMA 0) and the reclaimed pool (reclaim sizes `r0`, `r1`, `r2`
on NUMA 0, 1, 2; overlap sizing `ov` with `S` on NUMA 0 and `ov2` with `S`
on NUMA 2): on NUMA 0 the reclaimed pool gets one block sized to the
overlapping capacity `ov` (not `r0`) symmetrically joined against `S`'s
single block; on NUMA 1 (no overlap sizing) it gets one standalone block
sized `r1` with no overlap target; on NUMA 2, where `S` has no block, the
shared pool is skipped and the reclaimed entry is empty.  Separately, when
the shared pool already has two blocks on the NUMA index, it is treated as
not overlappable and skipped. -/
theorem C6_reclaim_overlap_assembly (S S2 : String) (a r0 r1 r2 ov ov2 rr ovv : Nat)
    (hS : S ≠ PoolNameReclaim) (hS2 : S2 ≠ PoolNameReclaim) :
    let resp : InternalCPUCalculationResult :=
      ⟨[(S, [(0, a)]), (PoolNameReclaim, [(0, r0), (1, r1), (2, r2)])], true,
        [(PoolNameReclaim, [(0, [(S, ov)]), (2, [(S, ov2)])])], []⟩
    let c6 := assemblePoolEntries resp [] AsmState.init
    let respB : InternalCPUCalculationResult :=
      ⟨[(PoolNameReclaim, [(5, rr)])], true, [(PoolNameReclaim, [(5, [(S2, ovv)])])], []⟩
    let mB : CEMap := [(S2, ⟨[(FakedContainerName, ⟨S2, [(5, ⟨[90, 91]⟩)]⟩)]⟩)]
    let cB := assemblePoolEntries respB mB AsmState.init
    getNumaCalculationResult c6.1 S FakedContainerName 0 = some ⟨[0]⟩ ∧
    blockInfo c6.2 0 = some (0, a) ∧
    getNumaCalculationResult c6.1 PoolNameReclaim FakedContainerName 0 = some ⟨[1]⟩ ∧
    blockInfo c6.2 1 = some (1, ov) ∧
    blockTargets c6.2 1 = [0] ∧
    blockTargets c6.2 0 = [1] ∧
    getNumaCalculationResult c6.1 PoolNameReclaim FakedContainerName 1 = some ⟨[2]⟩ ∧
    blockInfo c6.2 2 = some (2, r1) ∧
    blockTargets c6.2 2 = [] ∧
    getNumaCalculationResult c6.1 PoolNameReclaim FakedContainerName 2 = some ⟨[]⟩ ∧
    getNumaCalculationResult cB.1 PoolNameReclaim FakedContainerName 5 = some ⟨[]⟩ := by
  have hS' : S ≠ "reclaim" := hS
  have hS2' : S2 ≠ "reclaim" := hS2
  have hSr : "reclaim" ≠ S := Ne.symm hS'
  have hS2r : "reclaim" ≠ S2 := Ne.symm hS2'
  simp [assemblePoolEntries, mainPoolLoop, poolEntryFold, reclaimPoolFold,
    reclaimOverlapFold, InternalCPUCalculationResult.GetPoolOverlapInfo,
    NewPoolCalculationEntries, setPoolNumaResult, getNumaCalculationResult,
    lookupA, insertA, NewBlock, InnerBlock.join, NewInnerBlock, registerBlock,
    blockBid, blockInfo, blockTargets, addTarget, updateA,
    FakedContainerName, PoolNameReclaim, hS', hS2', hSr, hS2r, AsmState.init]

/-- Witness for C6 at concrete pool names and sizes. -/
theorem C6_reclaim_overlap_assembly_witness :
    let resp : InternalCPUCalculationResult :=
      ⟨[("share", [(0, 10)]), (PoolNameReclaim, [(0, 7), (1, 5), (2, 3)])], true,
        [(PoolNameReclaim, [(0, [("share", 2)]), (2, [("share", 9)])])], []⟩
    let c6 := assemblePoolEntries resp [] AsmState.init
    let respB : InternalCPUCalculationResult :=
      ⟨[(PoolNameReclaim, [(5, 6)])], true, [(PoolNameReclaim, [(5, [("two", 4)])])], []⟩
    let mB : CEMap := [("two", ⟨[(FakedContainerName, ⟨"two", [(5, ⟨[90, 91]⟩)]⟩)]⟩)]
    let cB := assemblePoolEntries respB mB AsmState.init
    getNumaCalculationResult c6.1 "share" FakedContainerName 0 = some ⟨[0]⟩ ∧
    blockInfo c6.2 0 = some (0, 10) ∧
    getNumaCalculationResult c6.1 PoolNameReclaim FakedContainerName 0 = some ⟨[1]⟩ ∧
    blockInfo c6.2 1 = some (1, 2) ∧
    blockTargets c6.2 1 = [0] ∧
    blockTargets c6.2 0 = [1] ∧
    getNumaCalculationResult c6.1 PoolNameReclaim FakedContainerName 1 = some ⟨[2]⟩ ∧
    blockInfo c6.2 2 = some (2, 5) ∧
    blockTargets c6.2 2 = [] ∧
    getNumaCalculationResult c6.1 PoolNameReclaim FakedContainerName 2 = some ⟨[]⟩ ∧
    getNumaCalculationResult cB.1 PoolNameReclaim FakedContainerName 5 = some ⟨[]⟩ := by
  exact C6_reclaim_overlap_assembly "share" "two" 10 7 5 3 2 9 6 4 (by decide) (by decide)

/-! ## C4: pools are ingested before containers within one reconciliation -/

/-- C4: within one `syncCheckpoint` call, every pool-sentinel entry is
ingested before any container entry is processed: a non-dedicated cached
container whose owner pool `P` is introduced by the same checkpoint (pool
assignment `A`) ends the reconciliation with its topology-aware assignment
overwritten by a clone of `P`'s just-ingested current assignment `A`, its
origin owner pool set on first observation, and the pool itself ingested
and surviving pool GC. -/
theorem C4_pools_before_containers (P u c : String) (q : QoSLevel)
    (A A2 Ai Ai2 B : CPUAssignment) (t ts : Int) (ru : Bool)
    (hq : q ≠ QoSLevel.dedicatedCores) (hu : u ≠ P) (hc : c ≠ "") (hP : P ≠ "") :
    let cp : Checkpoint :=
      [(P, [(FakedContainerName, ⟨P, false, A, A2⟩)]), (u, [(c, ⟨P, ru, Ai, Ai2⟩)])]
    let cache : MetaCache :=
      ⟨[], [((u, c), ⟨u, c, q, "old", "", false, false, [], B, B, false, ts⟩)]⟩
    let result := syncCheckpoint cp [(u, some q)] t cache
    (result.GetContainerInfo u c).map (fun x => x.topologyAwareAssignments) = some A ∧
    (result.GetContainerInfo u c).map (fun x => x.originOwnerPoolName) = some P ∧
    (result.GetPoolInfo P).map (fun x => x.topologyAwareAssignments) = some A := by
  have hu' : ¬ u = P := hu
  have hur : ¬ P = u := fun h => hu (h.symm)
  have hc' : ¬ c = "" := hc
  have hcr : ¬ ("" : String) = c := fun h => hc (h.symm)
  simp [syncCheckpoint, checkpointPoolNames, ingestPools, ingestContainers,
    ingestPodContainers, updatePoolInfo, updateContainerInfo, checkpointMissing,
    containerOrigins, MetaCache.GetPoolInfo, MetaCache.GetContainerInfo,
    MetaCache.SetPoolInfo, MetaCache.SetContainerInfo,
    MetaCache.RangeAndDeleteContainer, MetaCache.GCPoolEntries,
    TransformCPUAssignmentFormat, lookupA, insertA, FakedContainerName,
    List.filter_cons, hq, hu', hur, hc', hcr, hP]

/-- Witness for C4 at a concrete checkpoint introducing pool and container
together. -/
theorem C4_pools_before_containers_witness :
    let cp : Checkpoint :=
      [("flink", [(FakedContainerName, ⟨"flink", false, [(0, [1, 2])], []⟩)]),
       ("u", [("c", ⟨"flink", true, [(0, [9])], []⟩)])]
    let cache : MetaCache :=
      ⟨[], [(("u", "c"),
        ⟨"u", "c", QoSLevel.sharedCores, "old", "", false, false, [], [], [], false, 0⟩)]⟩
    let result := syncCheckpoint cp [("u", some QoSLevel.sharedCores)] 7 cache
    (result.GetContainerInfo "u" "c").map (fun x => x.topologyAwareAssignments) =
      some [(0, [1, 2])] ∧
    (result.GetContainerInfo "u" "c").map (fun x => x.originOwnerPoolName) =
      some "flink" ∧
    (result.GetPoolInfo "flink").map (fun x => x.topologyAwareAssignments) =
      some [(0, [1, 2])] := by
  exact C4_pools_before_containers "flink" "u" "c" QoSLevel.sharedCores
    [(0, [1, 2])] [] [(0, [9])] [] [] 7 0 true
    (by decide) (by decide) (by decide) (by decide)

/-! ## C5: container GC, origin-pool protection, pool GC -/

theorem lookupA_insertA_isSome {α β : Type} [DecidableEq α] (l : List (α × β)) (k a : α)
    (v : β) : (lookupA (insertA l k v) a).isSome ↔ a = k ∨ (lookupA l a).isSome := by
  by_cases h : a = k
  · subst h
    simp [lookupA_insertA_self]
  · simp [lookupA_insertA_ne _ _ _ _ h, h]

theorem insertA_keys_of_found {α β : Type} [DecidableEq α] (l : List (α × β)) (k : α)
    (v w : β) (h : lookupA l k = some w) :
    (insertA l k v).map Prod.fst = l.map Prod.fst := by
  induction l with
  | nil => simp [lookupA] at h
  | cons hd t ih =>
    rw [lookupA] at h
    by_cases hk : k = hd.1
    · simp [insertA, hk]
    · rw [if_neg hk] at h
      simp [insertA, hk, ih h]

theorem lookupA_filter_key {α β : Type} [DecidableEq α] (l : List (α × β))
    (g : α → Bool) (k : α) :
    lookupA (l.filter fun kv => g kv.1) k = if g k then lookupA l k else none := by
  induction l with
  | nil => simp [lookupA]
  | cons hd t ih =>
    by_cases hg : g hd.1
    · by_cases hk : k = hd.1
      · subst hk
        simp [List.filter_cons, hg, lookupA, ih]
      · simp [List.filter_cons, hg, lookupA, hk, ih]
    · by_cases hk : k = hd.1
      · subst hk
        simp [List.filter_cons, hg, lookupA, ih]
      · simp [List.filter_cons, hg, lookupA, hk, ih]

theorem lookupA_eq_none_of_not_mem {α β : Type} [DecidableEq α] (l : List (α × β))
    (k : α) (h : k ∉ l.map Prod.fst) : lookupA l k = none := by
  induction l with
  | nil => rfl
  | cons hd t ih =>
    rw [List.map_cons, List.mem_cons] at h
    push_neg at h
    rw [lookupA, if_neg h.1]
    exact ih h.2

theorem lookupA_filter_dropped {α β : Type} [DecidableEq α] (l : List (α × β))
    (g : α × β → Bool) (k : α) (v : β) (hnd : (l.map Prod.fst).Nodup)
    (h : lookupA l k = some v) (hg : g (k, v) = false) :
    lookupA (l.filter g) k = none := by
  induction l with
  | nil => simp [lookupA] at h
  | cons hd t ih =>
    rw [lookupA] at h
    rw [List.map_cons, List.nodup_cons] at hnd
    by_cases hk : k = hd.1
    · rw [if_pos hk] at h
      have hv : hd.2 = v := Option.some.inj h
      have hgh : g hd = false := by
        calc g hd = g (hd.1, hd.2) := rfl
        _ = g (k, v) := by rw [← hk, hv]
        _ = false := hg
      have hnone : lookupA t k = none :=
        lookupA_eq_none_of_not_mem t k (by rw [hk]; exact hnd.1)
      rw [List.filter_cons, hgh]
      simp only [Bool.false_eq_true, if_false]
      exact lookupA_filter_none t g k hnone
    · rw [if_neg hk] at h
      rw [List.filter_cons]
      by_cases hgh : g hd
      · simp only [hgh, if_true, lookupA, if_neg hk]
        exact ih hnd.2 h
      · simp only [hgh, Bool.false_eq_true, if_false]
        exact ih hnd.2 h

theorem pctAgree_refl (x : Option ContainerInfo) : pctAgree x x := by
  cases x <;> simp [pctAgree]

theorem pctAgree_trans (x y z : Option ContainerInfo) (h1 : pctAgree x y)
    (h2 : pctAgree y z) : pctAgree x z := by
  cases x <;> cases y <;> cases z <;> simp_all [pctAgree]

/-- One `updateContainerInfo` call preserves presence, pod UID, container
name and timestamp of every cache row. -/
theorem updateContainerInfo_pct (u cn : String) (q : Option QoSLevel)
    (i : AllocationInfo) (cache : MetaCache) (p c : String) :
    pctAgree (cache.GetContainerInfo p c)
      ((updateContainerInfo u cn q i cache).1.GetContainerInfo p c) := by
  unfold updateContainerInfo
  match hg : cache.GetContainerInfo u cn with
  | none => exact pctAgree_refl _
  | some ci0 =>
    match q with
    | none => exact pctAgree_refl _
    | some qos =>
      by_cases hk : (p, c) = (u, cn)
      · obtain ⟨hp, hc⟩ := Prod.mk.injEq .. ▸ hk
        subst hp; subst hc
        rw [hg]
        simp only [MetaCache.SetContainerInfo, MetaCache.GetContainerInfo]
        rw [show lookupA (insertA cache.containers (p, c) _) (p, c) = _ from
          lookupA_insertA_self ..]
        refine ⟨?_, ?_, ?_⟩ <;>
          (repeat first | rfl | split)
      · simp only [MetaCache.SetContainerInfo, MetaCache.GetContainerInfo]
        rw [lookupA_insertA_ne _ _ _ _ hk]
        exact pctAgree_refl _

/-- One `updateContainerInfo` call preserves the key list of the container
registry. -/
theorem updateContainerInfo_keys (u cn : String) (q : Option QoSLevel)
    (i : AllocationInfo) (cache : MetaCache) :
    (updateContainerInfo u cn q i cache).1.containers.map Prod.fst =
      cache.containers.map Prod.fst := by
  unfold updateContainerInfo
  match hg : cache.GetContainerInfo u cn with
  | none => rfl
  | some ci0 =>
    match q with
    | none => rfl
    | some qos =>
      simp only [MetaCache.SetContainerInfo]
      exact insertA_keys_of_found _ _ _ _ hg

theorem ingestPodContainers_pct (u : String) (q : Option QoSLevel)
    (rows : List (String × AllocationInfo)) (cache : MetaCache) (p c : String) :
    pctAgree (cache.GetContainerInfo p c)
      ((ingestPodContainers u q rows cache).GetContainerInfo p c) := by
  induction rows generalizing cache with
  | nil => exact pctAgree_refl _
  | cons r rest ih =>
    exact pctAgree_trans _ _ _ (updateContainerInfo_pct u r.1 q r.2 cache p c) (ih _)

theorem ingestPodContainers_keys (u : String) (q : Option QoSLevel)
    (rows : List (String × AllocationInfo)) (cache : MetaCache) :
    (ingestPodContainers u q rows cache).containers.map Prod.fst =
      cache.containers.map Prod.fst := by
  induction rows generalizing cache with
  | nil => rfl
  | cons r rest ih =>
    rw [ingestPodContainers, ih, updateContainerInfo_keys]

theorem ingestContainers_pct (pods : PodOracle) (cp : Checkpoint) (cache : MetaCache)
    (p c : String) :
    pctAgree (cache.GetContainerInfo p c)
      ((ingestContainers pods cp cache).GetContainerInfo p c) := by
  induction cp generalizing cache with
  | nil => exact pctAgree_refl _
  | cons e rest ih =>
    rw [ingestContainers]
    by_cases hs : (lookupA e.2 FakedContainerName).isSome
    · simp only [hs, if_true]
      exact ih _
    · simp only [hs, if_false]
      match lookupA pods e.1 with
      | none => exact ih _
      | some qosResult =>
        exact pctAgree_trans _ _ _ (ingestPodContainers_pct e.1 qosResult e.2 cache p c) (ih _)

theorem ingestContainers_keys (pods : PodOracle) (cp : Checkpoint) (cache : MetaCache) :
    (ingestContainers pods cp cache).containers.map Prod.fst =
      cache.containers.map Prod.fst := by
  induction cp generalizing cache with
  | nil => rfl
  | cons e rest ih =>
    rw [ingestContainers]
    by_cases hs : (lookupA e.2 FakedContainerName).isSome
    · simp only [hs, if_true]
      exact ih _
    · simp only [hs, if_false]
      match lookupA pods e.1 with
      | none => exact ih _
      | some qosResult =>
        show List.map Prod.fst
          (ingestContainers pods rest (ingestPodContainers e.1 qosResult e.2 cache)).containers = _
        rw [ih, ingestPodContainers_keys]

theorem ingestContainers_pools (pods : PodOracle) (cp : Checkpoint) (cache : MetaCache) :
    (ingestContainers pods cp cache).pools = cache.pools := by
  have hupd : ∀ u cn q i (c : MetaCache), (updateContainerInfo u cn q i c).1.pools = c.pools := by
    intro u cn q i c
    unfold updateContainerInfo
    match c.GetContainerInfo u cn with
    | none => rfl
    | some ci0 =>
      match q with
      | none => rfl
      | some qos => rfl
  have hrows : ∀ u q rows (c : MetaCache),
      (ingestPodContainers u q rows c).pools = c.pools := by
    intro u q rows
    induction rows with
    | nil => intro c; rfl
    | cons r rest ih =>
      intro c
      rw [ingestPodContainers, ih, hupd]
  induction cp generalizing cache with
  | nil => rfl
  | cons e rest ih =>
    rw [ingestContainers]
    by_cases hs : (lookupA e.2 FakedContainerName).isSome
    · simp only [hs, if_true]
      exact ih _
    · simp only [hs, if_false]
      match lookupA pods e.1 with
      | none => exact ih _
      | some qosResult =>
        show (ingestContainers pods rest (ingestPodContainers e.1 qosResult e.2 cache)).pools = _
        rw [ih, hrows]

theorem ingestPools_pools_isSome (cp : Checkpoint) (cache : MetaCache) (q : String) :
    ((ingestPools cp cache).GetPoolInfo q).isSome ↔
      q ∈ checkpointPoolNames cp ∨ (cache.GetPoolInfo q).isSome := by
  induction cp generalizing cache with
  | nil => simp [ingestPools, checkpointPoolNames]
  | cons e rest ih =>
    rw [ingestPools]
    match hs : lookupA e.2 FakedContainerName with
    | some info =>
      rw [ih]
      have hcpn : checkpointPoolNames (e :: rest) = e.1 :: checkpointPoolNames rest := by
        simp [checkpointPoolNames, hs]
      rw [hcpn]
      simp only [updatePoolInfo, MetaCache.SetPoolInfo, MetaCache.GetPoolInfo,
        List.mem_cons]
      rw [lookupA_insertA_isSome]
      tauto
    | none =>
      rw [ih]
      have hcpn : checkpointPoolNames (e :: rest) = checkpointPoolNames rest := by
        simp [checkpointPoolNames, hs]
      rw [hcpn]

theorem GCPoolEntries_GetPoolInfo (c : MetaCache) (living : List String) (q : String) :
    (c.GCPoolEntries living).GetPoolInfo q =
      if decide (q ∈ living) then c.GetPoolInfo q else none := by
  show lookupA (c.pools.filter fun kv => decide (kv.1 ∈ living)) q = _
  exact lookupA_filter_key c.pools (fun a => decide (a ∈ living)) q

/-- C5: garbage collection during reconciliation.  (i) Every cached
container whose pod UID is absent from the checkpoint or whose container
sub-entry is missing is deleted, with `safeTime` as the fence (deletion
applies to rows no newer than the fence).  (ii) A pool referenced by any
surviving container's origin owner pool survives pool GC whenever it
exists at all (in the cache before the call or introduced by the
checkpoint), even if the checkpoint omits it.  (iii) Pool GC deletes
exactly the pools outside the living set: a pool exists after the call iff
the checkpoint carries it as a pool row, or it was cached and some
surviving container's origin owner pool names it. -/
theorem C5_gc_containers_then_pools (cp : Checkpoint) (pods : PodOracle) (t : Int)
    (cache : MetaCache) (hnd : (cache.containers.map Prod.fst).Nodup) :
    (∀ p c ci, cache.GetContainerInfo p c = some ci →
      checkpointMissing cp ci = true → ci.timestamp ≤ t →
      (syncCheckpoint cp pods t cache).GetContainerInfo p c = none) ∧
    (∀ q : String, ((syncCheckpoint cp pods t cache).GetPoolInfo q).isSome ↔
      (q ∈ checkpointPoolNames cp ∨
        ((cache.GetPoolInfo q).isSome ∧
          q ∈ containerOrigins (syncCheckpoint cp pods t cache)))) ∧
    (∀ kv ∈ (syncCheckpoint cp pods t cache).containers,
      ((cache.GetPoolInfo kv.2.originOwnerPoolName).isSome ∨
        kv.2.originOwnerPoolName ∈ checkpointPoolNames cp) →
      ((syncCheckpoint cp pods t cache).GetPoolInfo kv.2.originOwnerPoolName).isSome) := by
  have hc1c : (ingestPools cp cache).containers = cache.containers :=
    ingestPools_containers cp cache
  have hiff : ∀ q : String, ((syncCheckpoint cp pods t cache).GetPoolInfo q).isSome ↔
      (q ∈ checkpointPoolNames cp ∨
        ((cache.GetPoolInfo q).isSome ∧
          q ∈ containerOrigins (syncCheckpoint cp pods t cache))) := by
    intro q
    have hsync : syncCheckpoint cp pods t cache =
        ((ingestContainers pods cp (ingestPools cp cache)).RangeAndDeleteContainer
          (checkpointMissing cp) t).GCPoolEntries
          (checkpointPoolNames cp ++ containerOrigins
            ((ingestContainers pods cp (ingestPools cp cache)).RangeAndDeleteContainer
              (checkpointMissing cp) t)) := rfl
    rw [hsync, GCPoolEntries_GetPoolInfo]
    have hpools :
        ((ingestContainers pods cp (ingestPools cp cache)).RangeAndDeleteContainer
          (checkpointMissing cp) t).GetPoolInfo q = (ingestPools cp cache).GetPoolInfo q := by
      show lookupA (ingestContainers pods cp (ingestPools cp cache)).pools q = _
      rw [ingestContainers_pools]
      rfl
    rw [hpools]
    rw [← hsync]
    have horig : containerOrigins (syncCheckpoint cp pods t cache) =
        containerOrigins ((ingestContainers pods cp (ingestPools cp cache)).RangeAndDeleteContainer
          (checkpointMissing cp) t) := rfl
    rw [horig]
    by_cases hmem : q ∈ checkpointPoolNames cp ++ containerOrigins
        ((ingestContainers pods cp (ingestPools cp cache)).RangeAndDeleteContainer
          (checkpointMissing cp) t)
    · rw [if_pos (by exact decide_eq_true hmem)]
      rw [List.mem_append] at hmem
      rw [ingestPools_pools_isSome]
      tauto
    · rw [if_neg (by simpa using hmem)]
      rw [List.mem_append] at hmem
      push_neg at hmem
      simp [hmem.1, hmem.2]
  refine ⟨?_, hiff, ?_⟩
  · intro p c ci hci hmiss hts
    have h1 : (ingestPools cp cache).GetContainerInfo p c = some ci := by
      show lookupA (ingestPools cp cache).containers (p, c) = some ci
      rw [hc1c]
      exact hci
    have h2 := ingestContainers_pct pods cp (ingestPools cp cache) p c
    rw [h1] at h2
    match hc2 : (ingestContainers pods cp (ingestPools cp cache)).GetContainerInfo p c with
    | none => rw [hc2] at h2; exact absurd h2 (by simp [pctAgree])
    | some ci' =>
      rw [hc2] at h2
      obtain ⟨hpu, hcn, hts'⟩ := h2
      have hmiss' : checkpointMissing cp ci' = true := by
        unfold checkpointMissing at hmiss ⊢
        rw [hpu, hcn]
        exact hmiss
      have hnd2 : ((ingestContainers pods cp (ingestPools cp cache)).containers.map
          Prod.fst).Nodup := by
        rw [ingestContainers_keys, hc1c]
        exact hnd
      show lookupA (((ingestContainers pods cp
        (ingestPools cp cache)).RangeAndDeleteContainer
          (checkpointMissing cp) t).containers) (p, c) = none
      apply lookupA_filter_dropped _ _ _ ci' hnd2 hc2
      have hkeep : checkpointMissing cp ci' = true ∧ ci'.timestamp ≤ t :=
        ⟨hmiss', by rw [hts']; exact hts⟩
      simpa using hkeep
  · intro kv hkv hsrc
    rw [hiff]
    have hq : kv.2.originOwnerPoolName ∈ containerOrigins (syncCheckpoint cp pods t cache) :=
      List.mem_map.mpr ⟨kv, hkv, rfl⟩
    rcases hsrc with hcache | hcp
    · exact Or.inr ⟨hcache, hq⟩
    · exact Or.inl hcp

/-- Witness for C5: the stale container is deleted, the cached pool kept
alive only by a surviving container's origin owner pool survives even
though the checkpoint omits it, and the orphaned pool is deleted. -/
theorem C5_gc_containers_then_pools_witness :
    (syncCheckpoint c5cp c5pods 5 c5cache).GetContainerInfo "gone" "c" = none ∧
    ((syncCheckpoint c5cp c5pods 5 c5cache).GetPoolInfo "share").isSome ∧
    ¬ ((syncCheckpoint c5cp c5pods 5 c5cache).GetPoolInfo "dead").isSome := by
  refine ⟨?_, ?_, ?_⟩
  · exact (C5_gc_containers_then_pools c5cp c5pods 5 c5cache (by decide)).1 "gone" "c"
      c5stale (by decide) (by decide) (by decide)
  · exact ((C5_gc_containers_then_pools c5cp c5pods 5 c5cache (by decide)).2.1 "share").mpr
      (Or.inr ⟨by decide, by decide⟩)
  · intro hdead
    have hmem :=
      ((C5_gc_containers_then_pools c5cp c5pods 5 c5cache (by decide)).2.1 "dead").mp hdead
    revert hmem
    decide

end KatalystCpuServer
